import Mathlib

/-!
Shallow embedding of the rs-tiled map/object parsing core (src/map.rs and
src/objects.rs) together with the collaborators those two files use.  The
XML tokenizer is modelled as a list of events; subtrees already delimited
by the tag dispatcher are modelled as lists of typed children.  Rust f32
values are modelled as exact rationals (the claims only exercise small
decimal literals), u32/i32 as bounded naturals/integers.
-/

namespace Tiled

/-- Modelled from the spec (section 7): error.rs is not in src/.  The error
kinds of TiledError; the XML decoding error payload is collapsed to a
message string since its structure is owned by the external xml crate. -/
inductive TiledError where
  | xmlDecodingError (msg : String)
  | malformedAttributes (msg : String)
  | prematureEnd (msg : String)
  | other (msg : String)
  deriving DecidableEq

/-- Result of a Rust function that returns a Result over TiledError but may
also panic (a panic aborts instead of returning).  The ok and err
constructors model Ok and Err; panicked models a panic with its message. -/
inductive PRes (α : Type) where
  | ok (a : α)
  | err (e : TiledError)
  | panicked (msg : String)
  deriving DecidableEq

/-- An XML attribute, name paired with raw string value, modelling
xml-rs OwnedAttribute. -/
abbrev Attr := String × String

/-- Looks up an attribute value by name, first match in list order
(models the by-name search the get_attrs! expansion performs). -/
def getAttr (attrs : List Attr) (n : String) : Option String :=
  (attrs.find? (fun a => a.1 = n)).map (fun a => a.2)

/-- Modelled from the spec (section 4.1): util.rs with the get_attrs! code
is not in src/.  An optional attribute: None if absent or if the conversion
rejects the raw string. -/
def optAttr {α : Type} (attrs : List Attr) (n : String) (conv : String → Option α) :
    Option α :=
  (getAttr attrs n).bind conv

/-- Modelled from the spec (section 4.1): a required attribute fails the
whole extraction with the caller-supplied error when absent or when the
conversion rejects the raw string. -/
def reqAttr {α : Type} (attrs : List Attr) (n : String) (conv : String → Option α)
    (e : TiledError) : PRes α :=
  match (getAttr attrs n).bind conv with
  | some v => .ok v
  | none => .err e

/-- Numeric value of a nonempty all-digit character list (helper for the
models of the Rust standard-library FromStr parsers, which are external
collaborators). -/
def digitsVal? (cs : List Char) : Option Nat :=
  if cs = [] then none
  else if cs.all Char.isDigit then
    some (cs.foldl (fun n c => n * 10 + (c.toNat - 48)) 0)
  else none

/-- Models Rust u32::from_str (external std collaborator) on the forms the
claims exercise: decimal digits, rejecting values outside u32 range. -/
def parseU32? (s : String) : Option Nat :=
  match digitsVal? s.data with
  | some n => if n < 2 ^ 32 then some n else none
  | none => none

/-- Models Rust i32::from_str (external std collaborator): optional sign,
decimal digits, i32 range check. -/
def parseI32? (s : String) : Option Int :=
  match s.data with
  | [] => none
  | c :: rest =>
    if c = Char.ofNat 45 then
      match digitsVal? rest with
      | some n => if n ≤ 2 ^ 31 then some (-(n : Int)) else none
      | none => none
    else if c = Char.ofNat 43 then
      match digitsVal? rest with
      | some n => if n < 2 ^ 31 then some (n : Int) else none
      | none => none
    else
      match digitsVal? s.data with
      | some n => if n < 2 ^ 31 then some (n : Int) else none
      | none => none

/-- Models the Rust str::split(char) iterator (external std collaborator)
on the character list of the string: groups between separator occurrences,
so the empty input yields one empty group and adjacent separators yield
empty groups. -/
def splitChar (sep : Char) : List Char → List (List Char)
  | [] => [[]]
  | c :: rest =>
    if c = sep then [] :: splitChar sep rest
    else
      match splitChar sep rest with
      | [] => [[c]]
      | g :: gs => (c :: g) :: gs

/-- Value of an unsigned decimal string with optional fractional part,
as an exact rational. -/
def decimalVal? (cs : List Char) : Option ℚ :=
  match splitChar (Char.ofNat 46) cs with
  | [intPart] =>
    match digitsVal? intPart with
    | some n => some (n : ℚ)
    | none => none
  | [intPart, fracPart] =>
    if intPart = [] ∧ fracPart = [] then none
    else if (intPart.all Char.isDigit) ∧ (fracPart.all Char.isDigit) then
      some ((intPart.foldl (fun n c => n * 10 + (c.toNat - 48)) 0 : ℚ) +
        (fracPart.foldl (fun n c => n * 10 + (c.toNat - 48)) 0 : ℚ) /
          ((10 : ℚ) ^ fracPart.length))
    else none
  | _ => none

/-- Models Rust f32::from_str (external std collaborator) on the plain
decimal forms the claims exercise (optional sign, digits, optional
fractional part), with exact rational values; exponent forms,
infinities and NaN are not claim-relevant. -/
def parseF32chars? : List Char → Option ℚ
  | [] => none
  | c :: rest =>
    if c = Char.ofNat 45 then (decimalVal? rest).map (fun q => -q)
    else if c = Char.ofNat 43 then decimalVal? rest
    else decimalVal? (c :: rest)

/-- String-level wrapper of parseF32chars?. -/
def parseF32? (s : String) : Option ℚ :=
  parseF32chars? s.data

/-- Modelled from the spec: properties.rs is not in src/.  An RGB color;
objects.rs constructs it with red/green/blue fields. -/
structure Color where
  red : Nat
  green : Nat
  blue : Nat
  deriving DecidableEq

/-- Hex digit value of a character, if any. -/
def hexVal? (c : Char) : Option Nat :=
  if 48 ≤ c.toNat ∧ c.toNat ≤ 57 then some (c.toNat - 48)
  else if 97 ≤ c.toNat ∧ c.toNat ≤ 102 then some (c.toNat - 87)
  else if 65 ≤ c.toNat ∧ c.toNat ≤ 70 then some (c.toNat - 55)
  else none

/-- Modelled from the spec (section 4.1, color hex decoding): the Color
FromStr impl lives in properties.rs which is not in src/.  Accepts six hex
digits with an optional leading hash mark; the claims only use its absence
behaviour. -/
def parseColor? (s : String) : Option Color :=
  match (if s.data.head? = some (Char.ofNat 35) then s.data.tail else s.data) with
  | [a, b, c, d, e, f] =>
    match hexVal? a, hexVal? b, hexVal? c, hexVal? d, hexVal? e, hexVal? f with
    | some a, some b, some c, some d, some e, some f =>
      some ⟨a * 16 + b, c * 16 + d, e * 16 + f⟩
    | _, _, _, _, _, _ => none
  | _ => none

/-- Modelled from the spec (section 4.3): properties.rs is not in src/ and
no claim inspects property contents; a properties mapping is represented
as its raw name-value pairs. -/
abbrev Properties := List (String × String)

/-- Modelled from the spec: tile.rs is not in src/.  A newtype wrapping an
unsigned (u32) integer tile identifier. -/
structure Gid where
  val : Nat
  deriving DecidableEq

/-- Modelled from the spec: the reserved EMPTY sentinel denoting no tile;
its concrete value is not claim-relevant. -/
def Gid.EMPTY : Gid := ⟨0⟩

/-- Modelled from the spec (section 3): tileset.rs is not in src/.  A
tileset owns the contiguous global tile id range
[first_gid, first_gid + tile_count). -/
structure Tileset where
  first_gid : Nat
  tile_count : Nat
  deriving DecidableEq

/-- Modelled from the spec (section 3): contains_tile tests membership of
a gid in the tileset's range [first_gid, first_gid + tile_count). -/
def Tileset.contains_tile (t : Tileset) (gid : Gid) : Bool :=
  decide (t.first_gid ≤ gid.val) && decide (gid.val < t.first_gid + t.tile_count)

/-- Embeds pub enum HorizontalAlignment (objects.rs lines 108-113). -/
inductive HorizontalAlignment where
  | left
  | center
  | right
  | justify
  deriving DecidableEq

/-- Embeds pub enum VerticalAlignment (objects.rs lines 117-121). -/
inductive VerticalAlignment where
  | top
  | center
  | bottom
  deriving DecidableEq

/-- Fields of the ObjectShape::Text variant (objects.rs lines 90-103),
gathered in a structure so that theorems can speak about single fields. -/
structure TextShape where
  font_family : String
  pixel_size : Nat
  wrap : Bool
  color : Color
  bold : Bool
  italic : Bool
  underline : Bool
  strikeout : Bool
  kerning : Bool
  halign : HorizontalAlignment
  valign : VerticalAlignment
  contents : String
  deriving DecidableEq

/-- Embeds pub enum ObjectShape (objects.rs lines 74-104); f32 fields are
modelled as exact rationals. -/
inductive ObjectShape where
  | rect (width : ℚ) (height : ℚ)
  | ellipse (width : ℚ) (height : ℚ)
  | polyline (points : List (ℚ × ℚ))
  | polygon (points : List (ℚ × ℚ))
  | point (x : ℚ) (y : ℚ)
  | text (t : TextShape)
  deriving DecidableEq

/-- Embeds pub struct Object (objects.rs lines 124-149). -/
structure Object where
  id : Nat
  gid : Gid
  name : String
  obj_type : String
  width : ℚ
  height : ℚ
  x : ℚ
  y : ℚ
  rotation : ℚ
  visible : Bool
  shape : ObjectShape
  properties : Properties
  deriving DecidableEq

/-- Embeds the token-wise loop of Object::parse_points (objects.rs lines
352-369) over the space-separated tokens as character lists: each token
must split on the comma into exactly two parts, each part must parse as a
number; first failure wins. -/
def parsePointList : List (List Char) → PRes (List (ℚ × ℚ))
  | [] => .ok []
  | p :: rest =>
    match splitChar (Char.ofNat 44) p with
    | [a, b] =>
      match parseF32chars? a, parseF32chars? b with
      | some x, some y =>
        match parsePointList rest with
        | .ok pts => .ok ((x, y) :: pts)
        | .err e => .err e
        | .panicked m => .panicked m
      | _, _ =>
        .err (.malformedAttributes
          ("one of polyline's points does not have i32eger coordinates"))
    | _ =>
      .err (.malformedAttributes
        ("one of a polyline's points does not have an x and y coordinate"))

/-- Embeds Object::parse_points (objects.rs lines 351-370): split the
string on spaces and parse each token as a comma-paired coordinate. -/
def Object.parse_points (s : String) : PRes (List (ℚ × ℚ)) :=
  parsePointList (splitChar (Char.ofNat 32) s.data)

/-- Embeds Object::new_polyline (objects.rs lines 236-247). -/
def Object.new_polyline (attrs : List Attr) : PRes ObjectShape :=
  match reqAttr attrs ("points") some
      (.malformedAttributes ("A polyline must have points")) with
  | .ok s =>
    match Object.parse_points s with
    | .ok pts => .ok (.polyline pts)
    | .err e => .err e
    | .panicked m => .panicked m
  | .err e => .err e
  | .panicked m => .panicked m

/-- Embeds Object::new_polygon (objects.rs lines 249-260). -/
def Object.new_polygon (attrs : List Attr) : PRes ObjectShape :=
  match reqAttr attrs ("points") some
      (.malformedAttributes ("A polygon must have points")) with
  | .ok s =>
    match Object.parse_points s with
    | .ok pts => .ok (.polygon pts)
    | .err e => .err e
    | .panicked m => .panicked m
  | .err e => .err e
  | .panicked m => .panicked m

/-- Embeds Object::new_point (objects.rs lines 262-264). -/
def Object.new_point (x : ℚ) (y : ℚ) : PRes ObjectShape :=
  .ok (.point x y)

/-- Embeds the halign match of Object::new_text (objects.rs lines 316-322):
left/center/right/justify, defaulting to left when absent, panicking on any
other literal. -/
def halignOf : Option String → PRes HorizontalAlignment
  | none => .ok .left
  | some s =>
    if s = "left" then .ok .left
    else if s = "center" then .ok .center
    else if s = "right" then .ok .right
    else if s = "justify" then .ok .justify
    else .panicked ("Unknown halign")

/-- Embeds the valign match of Object::new_text (objects.rs lines 323-328):
top/center/bottom, defaulting to top when absent; the panic message repeats
the halign wording exactly as in the source. -/
def valignOf : Option String → PRes VerticalAlignment
  | none => .ok .top
  | some s =>
    if s = "top" then .ok .top
    else if s = "center" then .ok .center
    else if s = "bottom" then .ok .bottom
    else .panicked ("Unknown halign")

/-- Embeds Object::new_text (objects.rs lines 266-349).  The contents
argument models the single stream event pulled after the attribute work:
some c stands for a Characters event carrying c, none for any other event,
on which the source panics with no message (explicit panic). -/
def Object.new_text (attrs : List Attr) (contents : Option String) :
    PRes ObjectShape :=
  match halignOf (getAttr attrs ("halign")) with
  | .err e => .err e
  | .panicked m => .panicked m
  | .ok halign =>
    match valignOf (getAttr attrs ("valign")) with
    | .err e => .err e
    | .panicked m => .panicked m
    | .ok valign =>
      match contents with
      | none => .panicked ("explicit panic")
      | some c =>
        .ok (.text
          { font_family := (getAttr attrs ("fontfamily")).getD ("sans-serif")
            pixel_size := (optAttr attrs ("pixelsize") parseU32?).getD 16
            wrap := decide (optAttr attrs ("wrap") parseI32? = some 1)
            color := (optAttr attrs ("color") parseColor?).getD ⟨0, 0, 0⟩
            bold := decide (optAttr attrs ("bold") parseI32? = some 1)
            italic := decide (optAttr attrs ("italic") parseI32? = some 1)
            underline := decide (optAttr attrs ("underline") parseI32? = some 1)
            strikeout := decide (optAttr attrs ("strikeout") parseI32? = some 1)
            kerning := !(decide (optAttr attrs ("kerning") parseI32? = some 0))
            halign := halign
            valign := valign
            contents := c })

/-- One already-delimited child element of an object element, as handed to
the handlers registered by Object::new (objects.rs lines 185-213).  The
text child carries the one stream event its handler will read (see
Object.new_text); the properties child carries its parsed subtree since
properties.rs is not in src/; unknown stands for any unrecognized child,
which the dispatcher skips. -/
inductive ObjectChild where
  | ellipse
  | polyline (attrs : List Attr)
  | polygon (attrs : List Attr)
  | point
  | text (attrs : List Attr) (contents : Option String)
  | properties (p : Properties)
  | unknown
  deriving DecidableEq

/-- Result of the shape-producing handler a child of an object element
triggers in Object::new (objects.rs lines 186-208), if the child is
shape-defining: none for properties and unknown children. -/
def Object.shapeResult (w h x y : ℚ) : ObjectChild → Option (PRes ObjectShape)
  | .ellipse => some (.ok (.ellipse w h))
  | .polyline a => some (Object.new_polyline a)
  | .polygon a => some (Object.new_polygon a)
  | .point => some (Object.new_point x y)
  | .text a c => some (Object.new_text a c)
  | .properties _ => none
  | .unknown => none

/-- Embeds the dispatch loop of Object::new over its children (objects.rs
lines 185-213): each shape-defining child overwrites the shape variable,
a properties child overwrites the properties variable, unknown children
are skipped; the first handler failure aborts. -/
def Object.parseChildren (w h x y : ℚ) :
    List ObjectChild → Option ObjectShape × Properties →
    PRes (Option ObjectShape × Properties)
  | [], st => .ok st
  | c :: rest, st =>
    match Object.shapeResult w h x y c with
    | some (.ok s) => Object.parseChildren w h x y rest (some s, st.2)
    | some (.err e) => .err e
    | some (.panicked m) => .panicked m
    | none =>
      match c with
      | .properties p => Object.parseChildren w h x y rest (st.1, p)
      | _ => Object.parseChildren w h x y rest st

/-- Embeds Object::new (objects.rs lines 152-234): required x and y,
optional attributes with their defaults, dispatch over the children, and
the fallback Rect shape built from the object's own width and height. -/
def Object.new (attrs : List Attr) (children : List ObjectChild) : PRes Object :=
  match (getAttr attrs ("x")).bind parseF32?, (getAttr attrs ("y")).bind parseF32? with
  | some x, some y =>
    match Object.parseChildren
        ((optAttr attrs ("width") parseF32?).getD 0)
        ((optAttr attrs ("height") parseF32?).getD 0)
        x y children (none, []) with
    | .ok (shape, properties) =>
      .ok
        { id := (optAttr attrs ("id") parseU32?).getD 0
          gid := (optAttr attrs ("gid") (fun v => (parseU32? v).map Gid.mk)).getD Gid.EMPTY
          name := (getAttr attrs ("name")).getD ("")
          obj_type := (getAttr attrs ("type")).getD ("")
          width := (optAttr attrs ("width") parseF32?).getD 0
          height := (optAttr attrs ("height") parseF32?).getD 0
          x := x
          y := y
          rotation := (optAttr attrs ("rotation") parseF32?).getD 0
          visible := (optAttr attrs ("visible")
            (fun s => (parseI32? s).map (fun i => decide (i = 1)))).getD true
          shape := shape.getD (.rect ((optAttr attrs ("width") parseF32?).getD 0)
            ((optAttr attrs ("height") parseF32?).getD 0))
          properties := properties }
    | .err e => .err e
    | .panicked m => .panicked m
  | _, _ => .err (.malformedAttributes ("objects must have an x and a y number"))

/-- One already-delimited child element of an objectgroup element, as
handed to the handlers registered by ObjectGroup::new (objects.rs lines
51-60). -/
inductive GroupChild where
  | object (attrs : List Attr) (children : List ObjectChild)
  | properties (p : Properties)
  | unknown
  deriving DecidableEq

/-- Embeds pub struct ObjectGroup (objects.rs lines 13-30). -/
structure ObjectGroup where
  name : String
  opacity : ℚ
  visible : Bool
  objects : List Object
  color : Option Color
  layer_index : Option Nat
  properties : Properties
  deriving DecidableEq

/-- Embeds the dispatch loop of ObjectGroup::new over its children
(objects.rs lines 51-60): object children are parsed and pushed in order,
a properties child overwrites the properties variable, unknown children
are skipped. -/
def ObjectGroup.parseChildren :
    List GroupChild → List Object × Properties →
    PRes (List Object × Properties)
  | [], st => .ok st
  | c :: rest, st =>
    match c with
    | .object a cs =>
      match Object.new a cs with
      | .ok o => ObjectGroup.parseChildren rest (st.1 ++ [o], st.2)
      | .err e => .err e
      | .panicked m => .panicked m
    | .properties p => ObjectGroup.parseChildren rest (st.1, p)
    | .unknown => ObjectGroup.parseChildren rest st

/-- Embeds ObjectGroup::new (objects.rs lines 33-70): every attribute is
optional (the required list is empty, so the MalformedAttributes message
about a name is never produced), with defaults empty name, opacity 1,
visible true, color none. -/
def ObjectGroup.new (attrs : List Attr) (children : List GroupChild)
    (layer_index : Option Nat) : PRes ObjectGroup :=
  match ObjectGroup.parseChildren children ([], []) with
  | .ok (objects, properties) =>
    .ok
      { name := (getAttr attrs ("name")).getD ("")
        opacity := (optAttr attrs ("opacity") parseF32?).getD 1
        visible := (optAttr attrs ("visible")
          (fun s => (parseI32? s).map (fun i => decide (i = 1)))).getD true
        objects := objects
        color := optAttr attrs ("color") parseColor?
        layer_index := layer_index
        properties := properties }
  | .err e => .err e
  | .panicked m => .panicked m

/-- Embeds pub enum Orientation (map.rs lines 170-175). -/
inductive Orientation where
  | orthogonal
  | isometric
  | staggered
  | hexagonal
  deriving DecidableEq

/-- Embeds the FromStr impl for Orientation (map.rs lines 180-188),
with the error collapsed to none since ParseTileError is converted to
an attribute-conversion failure at the only call site. -/
def Orientation.from_str (s : String) : Option Orientation :=
  if s = "orthogonal" then some .orthogonal
  else if s = "isometric" then some .isometric
  else if s = "staggered" then some .staggered
  else if s = "hexagonal" then some .hexagonal
  else none

/-- Modelled from the spec (section 3): layers.rs is not in src/.  Only the
layer index a tile layer stores is claim-relevant. -/
structure Layer where
  layer_index : Nat
  deriving DecidableEq

/-- Modelled from the spec (sections 2 and 3): Layer::new records the layer
index the map assembler passes it; the grid contents, width and infinite
flag it also receives are not claim-relevant. -/
def Layer.new (_attrs : List Attr) (_w : Nat) (layer_index : Nat)
    (_infinite : Bool) : Layer :=
  ⟨layer_index⟩

/-- Modelled from the spec (section 3): layers.rs is not in src/.  Only the
layer index an image layer stores is claim-relevant. -/
structure ImageLayer where
  layer_index : Nat
  deriving DecidableEq

/-- Modelled from the spec (sections 2 and 3): ImageLayer::new records the
layer index the map assembler passes it. -/
def ImageLayer.new (_attrs : List Attr) (layer_index : Nat) : ImageLayer :=
  ⟨layer_index⟩

/-- Embeds pub struct Map (map.rs lines 24-54); the source PathBuf is
modelled as a string. -/
structure Map where
  version : String
  orientation : Orientation
  width : Nat
  height : Nat
  tile_width : Nat
  tile_height : Nat
  tilesets : List Tileset
  layers : List Layer
  image_layers : List ImageLayer
  object_groups : List ObjectGroup
  properties : Properties
  background_color : Option Color
  infinite : Bool
  source : Option String
  deriving DecidableEq

/-- One already-delimited child element of the map element, as handed to
the handlers registered by Map::parse_xml (map.rs lines 120-144).  The
tileset child carries its parsed result since tileset.rs is not in src/;
likewise the properties child; unknown stands for any unrecognized child,
which the dispatcher skips. -/
inductive MapChild where
  | tileset (t : Tileset)
  | layer (attrs : List Attr)
  | imagelayer (attrs : List Attr)
  | properties (p : Properties)
  | objectgroup (attrs : List Attr) (children : List GroupChild)
  | unknown
  deriving DecidableEq

/-- The mutable locals of Map::parse_xml (map.rs lines 114-119) threaded
through the dispatch loop. -/
structure MapParseState where
  tilesets : List Tileset
  layers : List Layer
  image_layers : List ImageLayer
  properties : Properties
  object_groups : List ObjectGroup
  layer_index : Nat
  deriving DecidableEq

/-- Embeds the dispatch loop of Map::parse_xml over the map's children
(map.rs lines 120-144): entities are pushed in document order and the
shared layer_index counter is incremented exactly after each layer,
imagelayer or objectgroup handler. -/
def Map.parseChildren (w : Nat) (infinite : Bool) :
    List MapChild → MapParseState → PRes MapParseState
  | [], st => .ok st
  | c :: rest, st =>
    match c with
    | .tileset t =>
      Map.parseChildren w infinite rest { st with tilesets := st.tilesets ++ [t] }
    | .layer attrs =>
      Map.parseChildren w infinite rest
        { st with
          layers := st.layers ++ [Layer.new attrs w st.layer_index infinite]
          layer_index := st.layer_index + 1 }
    | .imagelayer attrs =>
      Map.parseChildren w infinite rest
        { st with
          image_layers := st.image_layers ++ [ImageLayer.new attrs st.layer_index]
          layer_index := st.layer_index + 1 }
    | .properties p =>
      Map.parseChildren w infinite rest { st with properties := p }
    | .objectgroup attrs children =>
      match ObjectGroup.new attrs children (some st.layer_index) with
      | .ok g =>
        Map.parseChildren w infinite rest
          { st with
            object_groups := st.object_groups ++ [g]
            layer_index := st.layer_index + 1 }
      | .err e => .err e
      | .panicked m => .panicked m
    | .unknown =>
      Map.parseChildren w infinite rest st

/-- Embeds Map::parse_xml (map.rs lines 92-161): extract map attributes
(version, orientation, width, height, tilewidth, tileheight required;
backgroundcolor and infinite optional), run the dispatcher over the
children, and assemble the Map. -/
def Map.parse_xml (attrs : List Attr) (children : List MapChild)
    (map_path : Option String) : PRes Map :=
  match (getAttr attrs ("version")),
      (getAttr attrs ("orientation")).bind Orientation.from_str,
      (getAttr attrs ("width")).bind parseU32?,
      (getAttr attrs ("height")).bind parseU32?,
      (getAttr attrs ("tilewidth")).bind parseU32?,
      (getAttr attrs ("tileheight")).bind parseU32? with
  | some v, some o, some w, some h, some tw, some th =>
    match Map.parseChildren w
        ((optAttr attrs ("infinite") (fun s => some (decide (s = "1")))).getD false)
        children ⟨[], [], [], [], [], 0⟩ with
    | .ok st =>
      .ok
        { version := v
          orientation := o
          width := w
          height := h
          tile_width := tw
          tile_height := th
          tilesets := st.tilesets
          layers := st.layers
          image_layers := st.image_layers
          object_groups := st.object_groups
          properties := st.properties
          background_color := optAttr attrs ("backgroundcolor") parseColor?
          infinite := (optAttr attrs ("infinite")
            (fun s => some (decide (s = "1")))).getD false
          source := map_path }
    | .err e => .err e
    | .panicked m => .panicked m
  | _, _, _, _, _, _ =>
    .err (.malformedAttributes
      ("map must have a version, width and height with correct types"))

/-- An event pulled from the xml-rs EventReader, as consumed by
Map::parse_reader (map.rs lines 62-81); other stands for every event kind
that function neither matches on nor reacts to (StartDocument, Comment,
whitespace, ProcessingInstruction, Characters, EndElement, ...). -/
inductive XmlEvent where
  | startElement (name : String) (attrs : List Attr)
  | endDocument
  | other
  deriving DecidableEq

/-- Embeds Map::parse_reader (map.rs lines 62-81).  The EventReader is
modelled as the list of events it yields (a well-formed stream always ends
with endDocument, so the empty-list case, modelled as the same premature
end, is unreachable on such streams).  Since Map::parse_xml works on
delimited children in this embedding, finding the map element returns its
attribute list together with the remaining stream, which the caller hands
to Map.parse_xml. -/
def Map.parse_reader : List XmlEvent → PRes (List Attr × List XmlEvent)
  | [] => .err (.prematureEnd ("Document ended before map was parsed"))
  | e :: rest =>
    match e with
    | .startElement name attrs =>
      if name = "map" then .ok (attrs, rest) else Map.parse_reader rest
    | .endDocument => .err (.prematureEnd ("Document ended before map was parsed"))
    | .other => Map.parse_reader rest

/-- Embeds Map::tileset_by_gid (map.rs lines 164-166): the first tileset in
stored order whose range contains the gid. -/
def Map.tileset_by_gid (m : Map) (gid : Gid) : Option Tileset :=
  m.tilesets.find? (fun t => t.contains_tile gid)

/-- The first tileset of the worked example in the spec (section 8):
first gid 1, tile count 10, so the gid range [1, 11). -/
def exTs1 : Tileset := ⟨1, 10⟩

/-- The second tileset of the worked example in the spec (section 8):
first gid 11, tile count 5, so the gid range [11, 16). -/
def exTs2 : Tileset := ⟨11, 5⟩

/-- A map holding the two example tilesets in stored order. -/
def exMap : Map :=
  ⟨"1.0", .orthogonal, 4, 4, 16, 16, [exTs1, exTs2], [], [], [], [], none, false, none⟩

/-- When find? returns an element, that element sits at some position, it
satisfies the predicate, and every earlier element fails it. -/
theorem find?_first_position {α : Type} (p : α → Bool) :
    ∀ (l : List α) (a : α), l.find? p = some a →
      ∃ i, ∃ h : i < l.length, l.get ⟨i, h⟩ = a ∧ p a = true ∧
        ∀ j (hj : j < i), p (l.get ⟨j, Nat.lt_trans hj h⟩) = false := by
  intro l
  induction l with
  | nil => intro a h; simp [List.find?] at h
  | cons x xs ih =>
    intro a h
    by_cases hx : p x = true
    · rw [List.find?_cons_of_pos _ hx] at h
      obtain rfl : x = a := by injection h
      exact ⟨0, Nat.succ_pos _, rfl, hx, fun j hj => absurd hj (Nat.not_lt_zero j)⟩
    · rw [List.find?_cons_of_neg _ hx] at h
      obtain ⟨i, hi, hget, hpa, hbefore⟩ := ih a h
      refine ⟨i + 1, Nat.succ_lt_succ hi, hget, hpa, ?_⟩
      intro j hj
      match j, hj with
      | 0, _ => simpa using hx
      | j + 1, hj => exact hbefore j (Nat.lt_of_succ_lt_succ hj)

/-- Claim C1: for every Map and every gid, tileset_by_gid returns the first
tileset in the stored order whose gid range contains the gid, and none when
no tileset's range contains it; on the example map with tilesets of first
gid 1 and tile count 10, then first gid 11 and tile count 5, Gid 5 resolves
to the first tileset, Gid 12 to the second and Gid 20 to none. -/
theorem claim_C1_tileset_by_gid :
    (∀ (m : Map) (g : Gid) (t : Tileset), m.tileset_by_gid g = some t →
      ∃ i, ∃ h : i < m.tilesets.length, m.tilesets.get ⟨i, h⟩ = t ∧
        t.contains_tile g = true ∧
        ∀ j (hj : j < i), (m.tilesets.get ⟨j, Nat.lt_trans hj h⟩).contains_tile g = false) ∧
    (∀ (m : Map) (g : Gid), m.tileset_by_gid g = none ↔
      ∀ t ∈ m.tilesets, t.contains_tile g = false) ∧
    exMap.tileset_by_gid ⟨5⟩ = some exTs1 ∧
    exMap.tileset_by_gid ⟨12⟩ = some exTs2 ∧
    exMap.tileset_by_gid ⟨20⟩ = none := by
  refine ⟨?_, ?_, by decide, by decide, by decide⟩
  · intro m g t h
    exact find?_first_position _ _ _ h
  · intro m g
    unfold Map.tileset_by_gid
    rw [List.find?_eq_none]
    simp

/-- Instantiation of claim C1's first-match characterization on the example
map at Gid 5, discharging the find? hypothesis by computation. -/
theorem claim_C1_tileset_by_gid_witness :
    ∃ i, ∃ h : i < exMap.tilesets.length, exMap.tilesets.get ⟨i, h⟩ = exTs1 ∧
      exTs1.contains_tile ⟨5⟩ = true ∧
      ∀ j (hj : j < i), (exMap.tilesets.get ⟨j, Nat.lt_trans hj h⟩).contains_tile ⟨5⟩ = false :=
  claim_C1_tileset_by_gid.1 exMap ⟨5⟩ exTs1 (by decide)

/-- Indices the shared counter hands to the tile layers among a map's
children when it starts at n: every layer, imagelayer or objectgroup child
advances the counter, every other child leaves it alone (statement-side
description of the claimed counting discipline). -/
def layerIdxs : List MapChild → Nat → List Nat
  | [], _ => []
  | .layer _ :: cs, n => n :: layerIdxs cs (n + 1)
  | .imagelayer _ :: cs, n => layerIdxs cs (n + 1)
  | .objectgroup _ _ :: cs, n => layerIdxs cs (n + 1)
  | _ :: cs, n => layerIdxs cs n

/-- Indices the shared counter hands to the image layers among a map's
children when it starts at n. -/
def imageIdxs : List MapChild → Nat → List Nat
  | [], _ => []
  | .layer _ :: cs, n => imageIdxs cs (n + 1)
  | .imagelayer _ :: cs, n => n :: imageIdxs cs (n + 1)
  | .objectgroup _ _ :: cs, n => imageIdxs cs (n + 1)
  | _ :: cs, n => imageIdxs cs n

/-- Indices the shared counter hands to the object groups among a map's
children when it starts at n. -/
def groupIdxs : List MapChild → Nat → List Nat
  | [], _ => []
  | .layer _ :: cs, n => groupIdxs cs (n + 1)
  | .imagelayer _ :: cs, n => groupIdxs cs (n + 1)
  | .objectgroup _ _ :: cs, n => n :: groupIdxs cs (n + 1)
  | _ :: cs, n => groupIdxs cs n

/-- A successfully built object group stores exactly the layer index the
caller passed in. -/
theorem ObjectGroup.new_layer_index (attrs : List Attr) (children : List GroupChild)
    (li : Option Nat) (g : ObjectGroup) (h : ObjectGroup.new attrs children li = .ok g) :
    g.layer_index = li := by
  unfold ObjectGroup.new at h
  split at h
  case _ x objects properties heq => cases h; rfl
  case _ => cases h
  case _ => cases h

/-- The dispatch loop of Map::parse_xml extends the three entity lists with
exactly the indices the counting discipline predicts from the state's
current counter value. -/
theorem parseChildren_indices (w : Nat) (inf : Bool) :
    ∀ (cs : List MapChild) (st st' : MapParseState),
      Map.parseChildren w inf cs st = .ok st' →
      st'.layers.map Layer.layer_index =
        st.layers.map Layer.layer_index ++ layerIdxs cs st.layer_index ∧
      st'.image_layers.map ImageLayer.layer_index =
        st.image_layers.map ImageLayer.layer_index ++ imageIdxs cs st.layer_index ∧
      st'.object_groups.map ObjectGroup.layer_index =
        st.object_groups.map ObjectGroup.layer_index ++
          (groupIdxs cs st.layer_index).map some := by
  intro cs
  induction cs with
  | nil =>
    intro st st' h
    cases h
    simp [layerIdxs, imageIdxs, groupIdxs]
  | cons c rest ih =>
    intro st st' h
    cases c with
    | tileset t =>
      simp only [Map.parseChildren] at h
      obtain ⟨h1, h2, h3⟩ := ih _ _ h
      simpa [layerIdxs, imageIdxs, groupIdxs] using ⟨h1, h2, h3⟩
    | layer attrs =>
      simp only [Map.parseChildren] at h
      obtain ⟨h1, h2, h3⟩ := ih _ _ h
      simp only [layerIdxs, imageIdxs, groupIdxs]
      simp only [List.map_append] at h1 h2 h3
      refine ⟨?_, by simpa using h2, by simpa using h3⟩
      rw [h1]
      simp [Layer.new]
    | imagelayer attrs =>
      simp only [Map.parseChildren] at h
      obtain ⟨h1, h2, h3⟩ := ih _ _ h
      simp only [layerIdxs, imageIdxs, groupIdxs]
      simp only [List.map_append] at h1 h2 h3
      refine ⟨by simpa using h1, ?_, by simpa using h3⟩
      rw [h2]
      simp [ImageLayer.new]
    | properties p =>
      simp only [Map.parseChildren] at h
      obtain ⟨h1, h2, h3⟩ := ih _ _ h
      simpa [layerIdxs, imageIdxs, groupIdxs] using ⟨h1, h2, h3⟩
    | objectgroup attrs children =>
      simp only [Map.parseChildren] at h
      cases hg : ObjectGroup.new attrs children (some st.layer_index) with
      | ok g =>
        rw [hg] at h
        simp only [] at h
        obtain ⟨h1, h2, h3⟩ := ih _ _ h
        simp only [layerIdxs, imageIdxs, groupIdxs]
        simp only [List.map_append] at h1 h2 h3
        refine ⟨by simpa using h1, by simpa using h2, ?_⟩
        rw [h3]
        simp [ObjectGroup.new_layer_index _ _ _ _ hg]
      | err e => rw [hg] at h; cases h
      | panicked m => rw [hg] at h; cases h
    | unknown =>
      simp only [Map.parseChildren] at h
      obtain ⟨h1, h2, h3⟩ := ih _ _ h
      simpa [layerIdxs, imageIdxs, groupIdxs] using ⟨h1, h2, h3⟩

/-- Map-element attributes of the worked layer-index example (spec
section 8). -/
def exMapAttrs : List Attr :=
  [("version", "1.0"), ("orientation", "orthogonal"), ("width", "4"),
    ("height", "4"), ("tilewidth", "16"), ("tileheight", "16")]

/-- Children of the worked layer-index example: one layer, one objectgroup,
one imagelayer, one layer, in that document order. -/
def exLayerChildren : List MapChild :=
  [.layer [], .objectgroup [] [], .imagelayer [], .layer []]

/-- The map the worked layer-index example parses to. -/
def exParsedMap : Map :=
  { version := "1.0"
    orientation := .orthogonal
    width := 4
    height := 4
    tile_width := 16
    tile_height := 16
    tilesets := []
    layers := [⟨0⟩, ⟨3⟩]
    image_layers := [⟨2⟩]
    object_groups := [⟨"", 1, true, [], none, some 1, []⟩]
    properties := []
    background_color := none
    infinite := false
    source := none }

/-- Claim C2: in every successfully parsed map document a single counter
starting at 0 is assigned across tile layers, image layers and object
groups in document order, incremented only by layer, imagelayer and
objectgroup children (a properties child never consumes an index); on the
document with one layer, one objectgroup, one imagelayer and one layer in
that order the stored indices are 0, 1, 2, 3. -/
theorem claim_C2_layer_index :
    (∀ (attrs : List Attr) (children : List MapChild) (path : Option String) (m : Map),
      Map.parse_xml attrs children path = .ok m →
      m.layers.map Layer.layer_index = layerIdxs children 0 ∧
      m.image_layers.map ImageLayer.layer_index = imageIdxs children 0 ∧
      m.object_groups.map ObjectGroup.layer_index = (groupIdxs children 0).map some) ∧
    Map.parse_xml exMapAttrs exLayerChildren none = .ok exParsedMap ∧
    exParsedMap.layers.map Layer.layer_index = [0, 3] ∧
    exParsedMap.object_groups.map ObjectGroup.layer_index = [some 1] ∧
    exParsedMap.image_layers.map ImageLayer.layer_index = [2] := by
  refine ⟨?_, by decide, by decide, by decide, by decide⟩
  intro attrs children path m h
  unfold Map.parse_xml at h
  split at h
  case _ =>
    revert h
    split
    case _ st hst =>
      intro h
      cases h
      obtain ⟨h1, h2, h3⟩ := parseChildren_indices _ _ _ _ _ hst
      simpa using ⟨h1, h2, h3⟩
    case _ => intro h; cases h
    case _ => intro h; cases h
  case _ => cases h

/-- Instantiation of claim C2's counting discipline on the worked example
document, discharging the successful-parse hypothesis by computation. -/
theorem claim_C2_layer_index_witness :
    exParsedMap.layers.map Layer.layer_index = layerIdxs exLayerChildren 0 ∧
    exParsedMap.image_layers.map ImageLayer.layer_index = imageIdxs exLayerChildren 0 ∧
    exParsedMap.object_groups.map ObjectGroup.layer_index =
      (groupIdxs exLayerChildren 0).map some :=
  claim_C2_layer_index.1 exMapAttrs exLayerChildren none exParsedMap (by decide)

/-- Claim C4: in every successfully parsed map the infinite field is false
when the attribute is absent, true when present as the string 1, false when
present as the string 0, and false (the absent-case default) for any other
literal value. -/
theorem claim_C4_infinite (attrs : List Attr) (children : List MapChild)
    (path : Option String) (m : Map) (h : Map.parse_xml attrs children path = .ok m) :
    (getAttr attrs ("infinite") = none → m.infinite = false) ∧
    (getAttr attrs ("infinite") = some ("1") → m.infinite = true) ∧
    (getAttr attrs ("infinite") = some ("0") → m.infinite = false) ∧
    (∀ s, getAttr attrs ("infinite") = some s → s ≠ "1" → m.infinite = false) := by
  have hm : m.infinite =
      (optAttr attrs ("infinite") (fun s => some (decide (s = "1")))).getD false := by
    unfold Map.parse_xml at h
    split at h
    case _ =>
      revert h
      split
      case _ => intro h; cases h; rfl
      case _ => intro h; cases h
      case _ => intro h; cases h
    case _ => cases h
  refine ⟨?_, ?_, ?_, ?_⟩
  · intro h0; rw [hm]; simp [optAttr, h0]
  · intro h1; rw [hm]; simp [optAttr, h1]
  · intro h0; rw [hm]; simp [optAttr, h0]
  · intro s hs hne; rw [hm]; simp [optAttr, hs, hne]

/-- The map the infinite example parses to: exMapAttrs plus the infinite
attribute set to 1, with no children. -/
def exInfMap : Map :=
  { version := "1.0"
    orientation := .orthogonal
    width := 4
    height := 4
    tile_width := 16
    tile_height := 16
    tilesets := []
    layers := []
    image_layers := []
    object_groups := []
    properties := []
    background_color := none
    infinite := true
    source := none }

/-- Instantiation of claim C4 on a map element carrying infinite set to 1,
discharging the successful-parse hypothesis by computation. -/
theorem claim_C4_infinite_witness :
    (getAttr (exMapAttrs ++ [("infinite", "1")]) ("infinite") = none →
      exInfMap.infinite = false) ∧
    (getAttr (exMapAttrs ++ [("infinite", "1")]) ("infinite") = some ("1") →
      exInfMap.infinite = true) ∧
    (getAttr (exMapAttrs ++ [("infinite", "1")]) ("infinite") = some ("0") →
      exInfMap.infinite = false) ∧
    (∀ s, getAttr (exMapAttrs ++ [("infinite", "1")]) ("infinite") = some s →
      s ≠ "1" → exInfMap.infinite = false) :=
  claim_C4_infinite (exMapAttrs ++ [("infinite", "1")]) [] none exInfMap (by decide)

/-- Claim C5: parse_reader ignores every event preceding the first map
StartElement (prolog, comments, other elements), and when the document ends
before any map StartElement it fails with PrematureEnd. -/
theorem claim_C5_parse_reader (pre : List XmlEvent)
    (hpre : ∀ e ∈ pre, (∀ a, e ≠ XmlEvent.startElement ("map") a) ∧ e ≠ XmlEvent.endDocument) :
    (∀ (attrs : List Attr) (rest : List XmlEvent),
      Map.parse_reader (pre ++ XmlEvent.startElement ("map") attrs :: rest) = .ok (attrs, rest)) ∧
    (∀ rest : List XmlEvent,
      Map.parse_reader (pre ++ XmlEvent.endDocument :: rest) =
        .err (.prematureEnd ("Document ended before map was parsed"))) := by
  have skip : ∀ l : List XmlEvent, Map.parse_reader (pre ++ l) = Map.parse_reader l := by
    induction pre with
    | nil => intro l; rfl
    | cons e es ih =>
      intro l
      obtain ⟨hmap, hend⟩ := hpre e (List.mem_cons_self e es)
      have ihs : ∀ l : List XmlEvent, Map.parse_reader (es ++ l) = Map.parse_reader l :=
        ih (fun x hx => hpre x (List.mem_cons_of_mem e hx))
      cases e with
      | startElement name attrs =>
        have hne : ¬ name = "map" := by
          intro hc
          exact hmap attrs (by rw [hc])
        simp [Map.parse_reader, hne, ihs]
      | endDocument => exact absurd rfl hend
      | other => simp [Map.parse_reader, ihs]
  refine ⟨?_, ?_⟩
  · intro attrs rest
    rw [skip]
    simp [Map.parse_reader]
  · intro rest
    rw [skip]
    rfl

/-- Instantiation of claim C5 on a stream whose prefix holds a prolog-like
event and an unrelated element before the map element, discharging the
prefix hypothesis by computation. -/
theorem claim_C5_parse_reader_witness :
    (∀ (attrs : List Attr) (rest : List XmlEvent),
      Map.parse_reader ([XmlEvent.other, XmlEvent.startElement ("html") []] ++
        XmlEvent.startElement ("map") attrs :: rest) = .ok (attrs, rest)) ∧
    (∀ rest : List XmlEvent,
      Map.parse_reader ([XmlEvent.other, XmlEvent.startElement ("html") []] ++
        XmlEvent.endDocument :: rest) =
        .err (.prematureEnd ("Document ended before map was parsed"))) :=
  claim_C5_parse_reader [XmlEvent.other, XmlEvent.startElement ("html") []]
    (by
      intro e he
      constructor
      · intro a ha
        subst ha
        simp at he
      · intro ha
        subst ha
        simp at he)

/-- When some token of the list does not split on the comma into exactly
two parts, the point-list loop fails, and every way it can fail carries a
MalformedAttributes error. -/
theorem parsePointList_malformed :
    ∀ ts : List (List Char), (∃ t ∈ ts, (splitChar (Char.ofNat 44) t).length ≠ 2) →
      ∃ msg, parsePointList ts = .err (.malformedAttributes msg) := by
  intro ts
  induction ts with
  | nil => intro hex; simp at hex
  | cons p rest ih =>
    intro hex
    simp only [parsePointList]
    split
    case _ a b heq =>
      split
      case _ x y hx hy =>
        have hrest : ∃ t ∈ rest, (splitChar (Char.ofNat 44) t).length ≠ 2 := by
          obtain ⟨t, ht, hlen⟩ := hex
          rcases List.mem_cons.mp ht with rfl | h2
          · exact absurd (by rw [heq]; rfl) hlen
          · exact ⟨t, h2, hlen⟩
        obtain ⟨msg, hmsg⟩ := ih hrest
        rw [hmsg]
        exact ⟨msg, rfl⟩
      case _ => exact ⟨_, rfl⟩
    case _ => exact ⟨_, rfl⟩

/-- Claim C6: the points string splits on spaces into comma-paired
coordinates, so the example input parses to the three expected pairs, and
every input with a space-separated token that does not split on the comma
into exactly two parts fails with a MalformedAttributes error. -/
theorem claim_C6_parse_points :
    Object.parse_points ("0,0 10,0 10,10") = .ok [(0, 0), (10, 0), (10, 10)] ∧
    ∀ s : String,
      (∃ t ∈ splitChar (Char.ofNat 32) s.data, (splitChar (Char.ofNat 44) t).length ≠ 2) →
      ∃ msg, Object.parse_points s = .err (.malformedAttributes msg) := by
  refine ⟨by decide, ?_⟩
  intro s hex
  exact parsePointList_malformed _ hex

/-- Instantiation of claim C6's failure half on an input whose second token
has no comma, discharging the bad-token hypothesis by computation. -/
theorem claim_C6_parse_points_witness :
    ∃ msg, Object.parse_points ("0,0 10") = .err (.malformedAttributes msg) :=
  claim_C6_parse_points.2 ("0,0 10") (by decide)

/-- Claim C7: in every successfully parsed text shape, absent halign and
valign yield Left and Top, an absent kerning attribute or one with a
non-zero integer value yields kerning true, and kerning given as the
string 0 yields kerning false. -/
theorem claim_C7_text_defaults (attrs : List Attr) (contents : String) (t : TextShape)
    (h : Object.new_text attrs (some contents) = .ok (.text t)) :
    (getAttr attrs ("halign") = none → t.halign = .left) ∧
    (getAttr attrs ("valign") = none → t.valign = .top) ∧
    (getAttr attrs ("kerning") = none → t.kerning = true) ∧
    (∀ s k, getAttr attrs ("kerning") = some s → parseI32? s = some k → k ≠ 0 →
      t.kerning = true) ∧
    (getAttr attrs ("kerning") = some ("0") → t.kerning = false) := by
  unfold Object.new_text at h
  split at h
  case _ => cases h
  case _ => cases h
  case _ halign hh =>
    split at h
    case _ => cases h
    case _ => cases h
    case _ valign hv =>
      injection h with h1
      injection h1 with h2
      subst h2
      refine ⟨?_, ?_, ?_, ?_, ?_⟩
      · intro h0
        rw [h0] at hh
        injection hh with h3
        exact h3.symm
      · intro h0
        rw [h0] at hv
        injection hv with h3
        exact h3.symm
      · intro h0
        show Bool.not (decide (optAttr attrs ("kerning") parseI32? = some 0)) = true
        simp [optAttr, h0]
      · intro s k hs hk hne
        show Bool.not (decide (optAttr attrs ("kerning") parseI32? = some 0)) = true
        simp [optAttr, hs, hk, hne]
      · intro h0
        show Bool.not (decide (optAttr attrs ("kerning") parseI32? = some 0)) = false
        simp [optAttr, h0]
        decide

/-- The text shape the witness input of claim C7 parses to. -/
def exText : TextShape :=
  ⟨"sans-serif", 16, false, ⟨0, 0, 0⟩, false, false, false, false, true, .left, .top, "hi"⟩

/-- Instantiation of claim C7 on a text element with no attributes,
discharging the successful-parse hypothesis by computation. -/
theorem claim_C7_text_defaults_witness :
    (getAttr [] ("halign") = none → exText.halign = .left) ∧
    (getAttr [] ("valign") = none → exText.valign = .top) ∧
    (getAttr [] ("kerning") = none → exText.kerning = true) ∧
    (∀ s k, getAttr [] ("kerning") = some s → parseI32? s = some k → k ≠ 0 →
      exText.kerning = true) ∧
    (getAttr [] ("kerning") = some ("0") → exText.kerning = false) :=
  claim_C7_text_defaults [] ("hi") exText (by decide)

/-- Claim C3, code side: on a text element whose halign attribute is the
unrecognized literal middle, Object::new_text panics with the message
Unknown halign instead of returning a typed error; the parse of such a
text shape is not a typed error result. -/
theorem claim_C3_halign_panics :
    Object.new_text [("halign", "middle")] (some ("")) = .panicked ("Unknown halign") ∧
    Object.new_text [("valign", "middle")] (some ("")) = .panicked ("Unknown halign") ∧
    (∀ e, Object.new_text [("halign", "middle")] (some ("")) ≠ .err e) := by
  refine ⟨by decide, by decide, ?_⟩
  intro e h
  rw [show Object.new_text [("halign", "middle")] (some ("")) = .panicked ("Unknown halign") from by decide] at h
  cases h

/-- Tells the shape-defining object children (ellipse, polyline, polygon,
point, text) from the others (properties, unknown). -/
def ObjectChild.isShape : ObjectChild → Bool
  | .ellipse => true
  | .polyline _ => true
  | .polygon _ => true
  | .point => true
  | .text _ _ => true
  | .properties _ => false
  | .unknown => false

/-- A child is shape-defining exactly when its handler produces a shape
result. -/
theorem shapeResult_eq_none (w h x y : ℚ) (c : ObjectChild) :
    ObjectChild.isShape c = false ↔ Object.shapeResult w h x y c = none := by
  cases c <;> simp [ObjectChild.isShape, Object.shapeResult]

/-- The dispatch loop of Object::new leaves the shape variable untouched
over children none of which is shape-defining. -/
theorem parseChildren_shape_preserved (w h x y : ℚ) :
    ∀ (children : List ObjectChild) (sh : Option ObjectShape) (pr : Properties)
      (st' : Option ObjectShape × Properties),
      (∀ c ∈ children, Object.shapeResult w h x y c = none) →
      Object.parseChildren w h x y children (sh, pr) = .ok st' → st'.1 = sh := by
  intro children
  induction children with
  | nil =>
    intro sh pr st' _ hp
    cases hp
    rfl
  | cons c rest ih =>
    intro sh pr st' hnone hp
    have hc := hnone c (List.mem_cons_self c rest)
    have hrest : ∀ d ∈ rest, Object.shapeResult w h x y d = none :=
      fun d hd => hnone d (List.mem_cons_of_mem c hd)
    simp only [Object.parseChildren] at hp
    rw [hc] at hp
    cases c with
    | properties p => exact ih sh p st' hrest hp
    | unknown => exact ih sh pr st' hrest hp
    | ellipse => simp [Object.shapeResult] at hc
    | polyline a => simp [Object.shapeResult] at hc
    | polygon a => simp [Object.shapeResult] at hc
    | point => simp [Object.shapeResult] at hc
    | text a co => simp [Object.shapeResult] at hc

/-- Claim C8: an object element whose subtree has no shape-defining child
gets the Rect shape built from the object's own width and height
attributes, each defaulting to 0 when absent. -/
theorem claim_C8_default_rect (attrs : List Attr) (children : List ObjectChild)
    (obj : Object) (hns : ∀ c ∈ children, ObjectChild.isShape c = false)
    (h : Object.new attrs children = .ok obj) :
    obj.shape = .rect obj.width obj.height ∧
    (getAttr attrs ("width") = none → obj.width = 0) ∧
    (getAttr attrs ("height") = none → obj.height = 0) ∧
    (∀ s q, getAttr attrs ("width") = some s → parseF32? s = some q → obj.width = q) ∧
    (∀ s q, getAttr attrs ("height") = some s → parseF32? s = some q → obj.height = q) := by
  unfold Object.new at h
  split at h
  case _ x y hx hy =>
    split at h
    case _ sh pr hps =>
      have hsh : sh = none := by
        have := parseChildren_shape_preserved _ _ x y children none [] (sh, pr)
          (fun c hc => (shapeResult_eq_none _ _ x y c).mp (hns c hc)) hps
        simpa using this
      subst hsh
      injection h with h1
      subst h1
      refine ⟨rfl, ?_, ?_, ?_, ?_⟩
      · intro h0
        show (optAttr attrs ("width") parseF32?).getD 0 = 0
        simp [optAttr, h0]
      · intro h0
        show (optAttr attrs ("height") parseF32?).getD 0 = 0
        simp [optAttr, h0]
      · intro s q hs hq
        show (optAttr attrs ("width") parseF32?).getD 0 = q
        simp [optAttr, hs, hq]
      · intro s q hs hq
        show (optAttr attrs ("height") parseF32?).getD 0 = q
        simp [optAttr, hs, hq]
    case _ => cases h
    case _ => cases h
  case _ => cases h

/-- The object the witness input of claim C8 parses to. -/
def exRectObj : Object :=
  ⟨0, Gid.EMPTY, "", "", 0, 0, 1, 2, 0, true, .rect 0 0, []⟩

/-- Instantiation of claim C8 on an object element with only x and y given
and no children, discharging both hypotheses by computation. -/
theorem claim_C8_default_rect_witness :
    exRectObj.shape = .rect exRectObj.width exRectObj.height ∧
    (getAttr [("x", "1"), ("y", "2")] ("width") = none → exRectObj.width = 0) ∧
    (getAttr [("x", "1"), ("y", "2")] ("height") = none → exRectObj.height = 0) ∧
    (∀ s q, getAttr [("x", "1"), ("y", "2")] ("width") = some s →
      parseF32? s = some q → exRectObj.width = q) ∧
    (∀ s q, getAttr [("x", "1"), ("y", "2")] ("height") = some s →
      parseF32? s = some q → exRectObj.height = q) :=
  claim_C8_default_rect [("x", "1"), ("y", "2")] [] exRectObj
    (by intro c hc; cases hc) (by decide)

/-- Whether the handler a child of an object element triggers succeeds
(properties and unknown children always do; a shape child succeeds when its
shape parses without error or panic). -/
def Object.childOk (w h x y : ℚ) (c : ObjectChild) : Bool :=
  match Object.shapeResult w h x y c with
  | some (.ok _) => true
  | some (.err _) => false
  | some (.panicked _) => false
  | none => true

/-- The dispatch loop of Object::new succeeds on any child list whose
handlers all succeed. -/
theorem parseChildren_all_ok (w h x y : ℚ) :
    ∀ (children : List ObjectChild) (st : Option ObjectShape × Properties),
      (∀ c ∈ children, Object.childOk w h x y c = true) →
      ∃ st', Object.parseChildren w h x y children st = .ok st' := by
  intro children
  induction children with
  | nil => intro st _; exact ⟨st, rfl⟩
  | cons c rest ih =>
    intro st hok
    have hc := hok c (List.mem_cons_self c rest)
    have hrest : ∀ d ∈ rest, Object.childOk w h x y d = true :=
      fun d hd => hok d (List.mem_cons_of_mem c hd)
    simp only [Object.parseChildren]
    cases hs : Object.shapeResult w h x y c with
    | some r =>
      cases r with
      | ok s => exact ih _ hrest
      | err e => simp [Object.childOk, hs] at hc
      | panicked m => simp [Object.childOk, hs] at hc
    | none =>
      cases c with
      | properties p => exact ih _ hrest
      | unknown => exact ih _ hrest
      | ellipse => simp [Object.shapeResult] at hs
      | polyline a => simp [Object.shapeResult] at hs
      | polygon a => simp [Object.shapeResult] at hs
      | point => simp [Object.shapeResult] at hs
      | text a co => simp [Object.shapeResult] at hs

/-- After the dispatch loop runs over a child list split as pre, a
shape-defining child whose handler yields s, and a tail with no further
shape-defining children, the final shape variable holds s. -/
theorem parseChildren_last_shape (w h x y : ℚ) (c : ObjectChild) (s : ObjectShape)
    (post : List ObjectChild) (hc : Object.shapeResult w h x y c = some (.ok s))
    (hpost : ∀ d ∈ post, Object.shapeResult w h x y d = none) :
    ∀ (pre : List ObjectChild) (st : Option ObjectShape × Properties)
      (st' : Option ObjectShape × Properties),
      Object.parseChildren w h x y (pre ++ c :: post) st = .ok st' →
      st'.1 = some s := by
  intro pre
  induction pre with
  | nil =>
    intro st st' hp
    simp only [List.nil_append, Object.parseChildren] at hp
    rw [hc] at hp
    obtain ⟨fst, snd⟩ := st'
    have := parseChildren_shape_preserved w h x y post (some s) st.2 (fst, snd) hpost hp
    simpa using this
  | cons p pre ih =>
    intro st st' hp
    simp only [List.cons_append, Object.parseChildren] at hp
    cases hps : Object.shapeResult w h x y p with
    | some r =>
      rw [hps] at hp
      cases r with
      | ok s2 => exact ih _ _ hp
      | err e => cases hp
      | panicked m => cases hp
    | none =>
      rw [hps] at hp
      cases p with
      | properties q => exact ih _ _ hp
      | unknown => exact ih _ _ hp
      | ellipse => simp [Object.shapeResult] at hps
      | polyline a => simp [Object.shapeResult] at hps
      | polygon a => simp [Object.shapeResult] at hps
      | point => simp [Object.shapeResult] at hps
      | text a co => simp [Object.shapeResult] at hps

/-- Claim C9: an object element with several shape-defining children parses
without an error being raised for the extra shape children (whenever every
child handler succeeds and x and y are given), and the resulting shape is
the one produced by the last shape-defining child in document order, later
shapes silently overwriting earlier ones. -/
theorem claim_C9_last_shape_wins :
    (∀ (attrs : List Attr) (children : List ObjectChild) (x y : ℚ),
      (getAttr attrs ("x")).bind parseF32? = some x →
      (getAttr attrs ("y")).bind parseF32? = some y →
      (∀ c ∈ children, Object.childOk ((optAttr attrs ("width") parseF32?).getD 0)
        ((optAttr attrs ("height") parseF32?).getD 0) x y c = true) →
      ∃ obj, Object.new attrs children = .ok obj) ∧
    (∀ (attrs : List Attr) (pre post : List ObjectChild) (c : ObjectChild)
      (s : ObjectShape) (obj : Object),
      Object.new attrs (pre ++ c :: post) = .ok obj →
      Object.shapeResult obj.width obj.height obj.x obj.y c = some (.ok s) →
      (∀ d ∈ post, Object.shapeResult obj.width obj.height obj.x obj.y d = none) →
      obj.shape = s) := by
  constructor
  · intro attrs children x y hx hy hok
    obtain ⟨⟨sh, pr⟩, hst⟩ := parseChildren_all_ok
      ((optAttr attrs ("width") parseF32?).getD 0)
      ((optAttr attrs ("height") parseF32?).getD 0) x y children (none, []) hok
    cases hr : Object.new attrs children with
    | ok obj => exact ⟨obj, rfl⟩
    | err e =>
      exfalso
      unfold Object.new at hr
      rw [hx, hy] at hr
      split at hr
      case _ x2 y2 hxx hyy =>
        injection hxx with hxx2
        injection hyy with hyy2
        subst hxx2
        subst hyy2
        rw [hst] at hr
        cases hr
      case _ hcon =>
        exact hcon x y rfl rfl
    | panicked m =>
      exfalso
      unfold Object.new at hr
      rw [hx, hy] at hr
      split at hr
      case _ x2 y2 hxx hyy =>
        injection hxx with hxx2
        injection hyy with hyy2
        subst hxx2
        subst hyy2
        rw [hst] at hr
        cases hr
      case _ hcon =>
        exact hcon x y rfl rfl
  · intro attrs pre post c s obj h hc hpost
    unfold Object.new at h
    split at h
    case _ x y hx hy =>
      split at h
      case _ sh pr hps =>
        injection h with h1
        subst h1
        have := parseChildren_last_shape _ _ x y c s post hc hpost pre (none, []) (sh, pr) hps
        simp only at this
        subst this
        rfl
      case _ => cases h
      case _ => cases h
    case _ => cases h

/-- The object the witness input of claim C9 parses to: an ellipse child
followed by a point child, the point winning. -/
def exPointObj : Object :=
  ⟨0, Gid.EMPTY, "", "", 0, 0, 1, 2, 0, true, .point 1 2, []⟩

/-- Instantiation of claim C9's last-wins half on an object with an ellipse
child then a point child, discharging every hypothesis by computation. -/
theorem claim_C9_last_shape_wins_witness :
    exPointObj.shape = .point 1 2 :=
  claim_C9_last_shape_wins.2 [("x", "1"), ("y", "2")] [ObjectChild.ellipse] []
    ObjectChild.point (.point 1 2) exPointObj (by decide) (by decide)
    (by intro d hd; cases hd)

/-- Whether the handler a child of an objectgroup element triggers
succeeds (properties and unknown children always do; an object child
succeeds when Object::new does). -/
def GroupChild.handlerOk : GroupChild → Bool
  | .object a cs =>
    match Object.new a cs with
    | .ok _ => true
    | .err _ => false
    | .panicked _ => false
  | .properties _ => true
  | .unknown => true

/-- The dispatch loop of ObjectGroup::new succeeds on any child list whose
handlers all succeed. -/
theorem groupParseChildren_all_ok :
    ∀ (children : List GroupChild) (st : List Object × Properties),
      (∀ c ∈ children, GroupChild.handlerOk c = true) →
      ∃ st', ObjectGroup.parseChildren children st = .ok st' := by
  intro children
  induction children with
  | nil => intro st _; exact ⟨st, rfl⟩
  | cons c rest ih =>
    intro st hok
    have hc := hok c (List.mem_cons_self c rest)
    have hrest : ∀ d ∈ rest, GroupChild.handlerOk d = true :=
      fun d hd => hok d (List.mem_cons_of_mem c hd)
    cases c with
    | object a cs =>
      simp only [ObjectGroup.parseChildren]
      cases ho : Object.new a cs with
      | ok o => exact ih _ hrest
      | err e => simp [GroupChild.handlerOk, ho] at hc
      | panicked m => simp [GroupChild.handlerOk, ho] at hc
    | properties p =>
      simp only [ObjectGroup.parseChildren]
      exact ih _ hrest
    | unknown =>
      simp only [ObjectGroup.parseChildren]
      exact ih _ hrest

/-- Claim C10: objectgroup parsing has no required attributes (despite the
source's MalformedAttributes message about a name): with any attribute list
and a well-formed subtree it succeeds, an absent name yields the empty
string, absent opacity yields 1, absent visible yields true and absent
color yields none. -/
theorem claim_C10_objectgroup_defaults (attrs : List Attr)
    (children : List GroupChild) (li : Option Nat)
    (hch : ∀ c ∈ children, GroupChild.handlerOk c = true) :
    ∃ g, ObjectGroup.new attrs children li = .ok g ∧
      (getAttr attrs ("name") = none → g.name = "") ∧
      (getAttr attrs ("opacity") = none → g.opacity = 1) ∧
      (getAttr attrs ("visible") = none → g.visible = true) ∧
      (getAttr attrs ("color") = none → g.color = none) := by
  obtain ⟨⟨objs, pr⟩, hst⟩ := groupParseChildren_all_ok children ([], []) hch
  unfold ObjectGroup.new
  rw [hst]
  refine ⟨_, rfl, ?_, ?_, ?_, ?_⟩
  · intro h0
    show (getAttr attrs ("name")).getD ("") = ""
    simp [h0]
  · intro h0
    show (optAttr attrs ("opacity") parseF32?).getD 1 = 1
    simp [optAttr, h0]
  · intro h0
    show (optAttr attrs ("visible")
      (fun s => (parseI32? s).map (fun i => decide (i = 1)))).getD true = true
    simp [optAttr, h0]
  · intro h0
    show optAttr attrs ("color") parseColor? = none
    simp [optAttr, h0]

/-- Instantiation of claim C10 on an objectgroup element with an empty
attribute list and no children, discharging the well-formed-subtree
hypothesis trivially. -/
theorem claim_C10_objectgroup_defaults_witness :
    ∃ g, ObjectGroup.new [] [] (some 0) = .ok g ∧
      (getAttr [] ("name") = none → g.name = "") ∧
      (getAttr [] ("opacity") = none → g.opacity = 1) ∧
      (getAttr [] ("visible") = none → g.visible = true) ∧
      (getAttr [] ("color") = none → g.color = none) :=
  claim_C10_objectgroup_defaults [] [] (some 0) (by intro c hc; cases hc)

end Tiled
